import Mathlib

/-!
Shallow embedding of the QuizGenie core (quiz_store.py, quiz_generator.py,
objective.py, subjective.py) and verification of the frozen claims.

Conventions of the embedding:
* Python `dict` is modelled as an association list with replace-or-append
  update (`alSet`), first-match lookup (`alGet`) and key removal (`alPop`).
* `datetime.now()` / `time.time()` are modelled as an explicit `now : Int`
  parameter (seconds); `timedelta(hours=24)` is `86400`, the cleanup
  interval is `3600`.
* Scores and running averages are exact rationals (`ℚ`); Python floats are
  modelled by exact arithmetic.
* Randomness (`random.choice`, `random.randint`) is modelled by an explicit
  stream `rnd : List Nat` consumed left to right, a draw from a list `l`
  being `l[n % l.length]`.  `random.sample` and `random.shuffle` are
  modelled as function parameters, constrained in the theorems by the only
  properties the code relies on (length of a sample, permutation for a
  shuffle).
* External NLP services (`sent_tokenize`, `word_tokenize`, `pos_tag`,
  `stopwords`) are inputs: a sentence arrives together with its token/tag
  list, and the stop-word list is a `String → Bool` parameter.
* Python exceptions are `Except` results; a `while` loop whose termination
  depends on randomness gets a finite random stream and returns `none`
  (modelling divergence) when the stream is exhausted before the loop can
  exit.
-/

/-! ## Association-list model of Python dict -/

def alGet {α : Type} (m : List (String × α)) (k : String) : Option α :=
  (m.find? (fun p => p.1 = k)).map (·.2)

def alSet {α : Type} : List (String × α) → String → α → List (String × α)
  | [], k, v => [(k, v)]
  | (k', v') :: m, k, v =>
    if k' = k then (k, v) :: m else (k', v') :: alSet m k v

def alPop {α : Type} : List (String × α) → String → List (String × α)
  | [], _ => []
  | (k', v') :: m, k => if k' = k then m else (k', v') :: alPop m k

theorem alGet_alSet {α : Type} (m : List (String × α)) (k : String) (v : α) :
    alGet (alSet m k v) k = some v := by
  induction m with
  | nil => simp [alGet, alSet]
  | cons p m ih =>
    obtain ⟨k', v'⟩ := p
    by_cases h : k' = k
    · simp [alSet, h, alGet]
    · simp [alSet, h, alGet, List.find?]
      simpa [alGet, h] using ih

/-! ## quiz_store.py : data model -/

/-- A question as stored by `QuizStore` (`quiz['questions']` entries are
dicts; `submit_quiz` only reads `q['correct_answer']`). -/
structure SQuestion where
  correct_answer : String
deriving Repr, DecidableEq

/-- A submission record (`submit_quiz` builds
`{'student_name', 'answers', 'timestamp'}`). -/
structure Submission where
  student_name : String
  answers : List String
  timestamp : Int
deriving Repr, DecidableEq

/-- A quiz record as built by `QuizStore.create_quiz`. -/
structure Quiz where
  questions : List SQuestion
  quiz_type : String
  created_by : String
  submissions : List Submission
  created_at : Int
  expires_at : Int
  total_attempts : Nat
  average_score : ℚ
deriving Repr, DecidableEq

/-- The mutable state of a `QuizStore`.  Note `expired_quizzes` maps codes
to `Option Quiz`: `cleanup_expired_quizzes` stores `self.quizzes.get(code)`,
whose value can be Python `None`. -/
structure QuizStore where
  quizzes : List (String × Quiz)
  submissions : List (String × List Submission)
  expired_quizzes : List (String × Option Quiz)
  last_cleanup : Int
deriving Repr, DecidableEq

/-- `QuizStore.__init__`: empty maps; `expiry_time` is 24h and
`_cleanup_interval` 3600s, inlined as constants below. -/
def QuizStore.init (now : Int) : QuizStore :=
  { quizzes := [], submissions := [], expired_quizzes := [], last_cleanup := now }

/-- `timedelta(hours=24)` in seconds. -/
def expiryTime : Int := 86400

/-- `self._cleanup_interval = 3600`. -/
def cleanupInterval : Int := 3600

/-! ## quiz_store.py : operations -/

/-- `QuizStore.cleanup_expired_quizzes`.  Faithful to the source: each
expired code is popped from `quizzes` and `submissions` FIRST, and only
then is `self.quizzes.get(code)` (now `None`) stored into
`expired_quizzes`. -/
def cleanup_expired_quizzes (s : QuizStore) (now : Int) : QuizStore :=
  let expired_codes :=
    (s.quizzes.filter (fun p => p.2.expires_at ≤ now)).map (·.1)
  let s' := expired_codes.foldl
    (fun st code =>
      let st1 : QuizStore :=
        { st with quizzes := alPop st.quizzes code,
                  submissions := alPop st.submissions code }
      { st1 with
          expired_quizzes := alSet st1.expired_quizzes code (alGet st1.quizzes code) })
    s
  { s' with last_cleanup := now }

/-- `QuizStore.create_quiz`.  The uuid-derived code is an explicit
parameter (external randomness); the lazy cleanup sweep runs first when the
interval has elapsed, exactly as in the source. -/
def create_quiz (s : QuizStore) (now : Int) (questions : List SQuestion)
    (quiz_type created_by code : String) : QuizStore × String :=
  let s :=
    if now - s.last_cleanup > cleanupInterval then
      { cleanup_expired_quizzes s now with last_cleanup := now }
    else s
  let quiz : Quiz :=
    { questions := questions
      quiz_type := quiz_type
      created_by := created_by
      submissions := []
      created_at := now
      expires_at := now + expiryTime
      total_attempts := 0
      average_score := 0 }
  ({ s with quizzes := alSet s.quizzes code quiz }, code)

/-- `QuizStore.get_quiz`: the quiz, only while `now < expires_at`. -/
def get_quiz (s : QuizStore) (now : Int) (code : String) : Option Quiz :=
  match alGet s.quizzes code with
  | some quiz => if now < quiz.expires_at then some quiz else none
  | none => none

/-- `QuizStore.get_expired_quiz`: `self.expired_quizzes.get(quiz_code)`.
A stored Python `None` and an absent key are both returned as `none`. -/
def get_expired_quiz (s : QuizStore) (code : String) : Option Quiz :=
  (alGet s.expired_quizzes code).bind id

/-- The two `raise ValueError` sites of `submit_quiz`, plus the
`ZeroDivisionError` Python raises when a quiz has zero questions. -/
inductive SubmitError where
  | quizNotFound
  | answerCountMismatch
  | zeroDivision
deriving Repr, DecidableEq

/-- Per-question feedback entry built by `submit_quiz`. -/
structure Feedback where
  question_num : Nat
  correct : Bool
  student_answer : String
  correct_answer : String
deriving Repr, DecidableEq

/-- The response object returned by `submit_quiz`. -/
structure SubmitResponse where
  student_name : String
  submission_time : Int
  score : Nat
  score_percentage : ℚ
  total_questions : Nat
  answers : List String
  feedback : List Feedback
deriving Repr, DecidableEq

/-- Python `str.lower()`, modelled as character-wise ASCII lowercasing
(structural, so that concrete runs evaluate inside the kernel). -/
def pyLower (s : String) : String :=
  ⟨s.data.map Char.toLower⟩

/-- `a.lower() == q['correct_answer'].lower()`. -/
def answerCorrect (q : SQuestion) (a : String) : Bool :=
  pyLower a = pyLower q.correct_answer

/-- `QuizStore.submit_quiz`.  Because the Python method mutates the store
(appending the submission to both `self.submissions[code]` and
`quiz['submissions']`) BEFORE validating the answer count, the model
returns the post-mutation store alongside the `Except` result, so a raised
error leaves those mutations in place. -/
def submit_quiz (s : QuizStore) (now : Int) (code student_name : String)
    (answers : List String) : QuizStore × Except SubmitError SubmitResponse :=
  match get_quiz s now code with
  | none => (s, .error .quizNotFound)
  | some quiz =>
    let submission : Submission :=
      { student_name := student_name, answers := answers, timestamp := now }
    let subList := (alGet s.submissions code).getD []
    let s1 : QuizStore :=
      { s with submissions := alSet s.submissions code (subList ++ [submission]) }
    let quiz1 := { quiz with submissions := quiz.submissions ++ [submission] }
    let s2 : QuizStore := { s1 with quizzes := alSet s1.quizzes code quiz1 }
    let questions := quiz.questions
    if answers.length ≠ questions.length then
      (s2, .error .answerCountMismatch)
    else if questions.length = 0 then
      -- `(correct_count / len(questions)) * 100` raises ZeroDivisionError
      (s2, .error .zeroDivision)
    else
      let correct_count :=
        ((questions.zip answers).filter (fun p => answerCorrect p.1 p.2)).length
      let score_percentage : ℚ := ((correct_count : ℚ) / (questions.length : ℚ)) * 100
      let feedback :=
        ((questions.zip answers).enum.map (fun p =>
          { question_num := p.1 + 1
            correct := answerCorrect p.2.1 p.2.2
            student_answer := p.2.2
            correct_answer := p.2.1.correct_answer : Feedback }))
      let response : SubmitResponse :=
        { student_name := student_name
          submission_time := now
          score := correct_count
          score_percentage := score_percentage
          total_questions := questions.length
          answers := answers
          feedback := feedback }
      let quiz2 :=
        { quiz1 with
            total_attempts := quiz1.total_attempts + 1
            average_score :=
              (quiz1.average_score * ((quiz1.total_attempts + 1 : ℚ) - 1)
                + score_percentage) / (quiz1.total_attempts + 1 : ℚ) }
      ({ s2 with quizzes := alSet s2.quizzes code quiz2 }, .ok response)

/-! ## Store lemmas -/

/-- `submit_quiz` on an active quiz with the wrong number of answers:
the raised error is the mismatch error, and the store it leaves behind has
the submission appended to both submission lists while the quiz's
statistics fields are untouched. -/
theorem submit_quiz_mismatch_spec (s : QuizStore) (now : Int)
    (code name : String) (answers : List String) (quiz : Quiz)
    (hq : get_quiz s now code = some quiz)
    (hlen : answers.length ≠ quiz.questions.length) :
    submit_quiz s now code name answers =
      ({ s with
          submissions := alSet s.submissions code
            ((alGet s.submissions code).getD [] ++ [⟨name, answers, now⟩]),
          quizzes := alSet s.quizzes code
            { quiz with submissions := quiz.submissions ++ [⟨name, answers, now⟩] } },
       .error .answerCountMismatch) := by
  simp only [submit_quiz, hq, hlen, if_true, ite_not]
  simp [hlen]

/-! ## C1 -/

/-- C1: claimed — for every quiz whose `expires_at` has passed,
`cleanup_expired_quizzes` moves it into the expired archive without losing
its data, so `get_expired_quiz` afterwards returns the quiz record.
The code is a slip: it pops the quiz from the active map first and then
archives `self.quizzes.get(code)`, which is already `None`.  At this
failing input (one quiz, expired at cleanup time) the quiz is indeed gone
from the active map, but the archive holds `None` and `get_expired_quiz`
returns nothing. -/
theorem C1_cleanup_archives_none :
    (alGet (cleanup_expired_quizzes
        ⟨[("QZ01AB", ⟨[⟨"Paris"⟩], "mcq", "teacher", [], 0, 86400, 0, 0⟩)],
         [("QZ01AB", [])], [], 0⟩ 90000).quizzes "QZ01AB" = none)
    ∧ get_expired_quiz (cleanup_expired_quizzes
        ⟨[("QZ01AB", ⟨[⟨"Paris"⟩], "mcq", "teacher", [], 0, 86400, 0, 0⟩)],
         [("QZ01AB", [])], [], 0⟩ 90000) "QZ01AB" = none := by
  constructor <;> rfl

/-! ## C3 -/

/-- C3: for every active quiz and every answers list whose length differs
from the number of questions, `submit_quiz` fails with the
answer-count-mismatch error and the quiz's `total_attempts` is unchanged
by the failed call. -/
theorem C3_mismatch_error_attempts_unchanged (s : QuizStore) (now : Int)
    (code name : String) (answers : List String) (quiz : Quiz)
    (hq : get_quiz s now code = some quiz)
    (hlen : answers.length ≠ quiz.questions.length) :
    (submit_quiz s now code name answers).2 = .error .answerCountMismatch
    ∧ (alGet (submit_quiz s now code name answers).1.quizzes code).map
        Quiz.total_attempts = some quiz.total_attempts := by
  rw [submit_quiz_mismatch_spec s now code name answers quiz hq hlen]
  refine ⟨rfl, ?_⟩
  simp [alGet_alSet]

/-- Witness for C3 at a concrete input: a fresh one-question quiz, two
answers. -/
theorem C3_witness :
    (get_quiz ⟨[("QZ", ⟨[⟨"Paris"⟩], "mcq", "alice", [], 0, 86400, 5, 40⟩)], [], [], 0⟩
        100 "QZ" = some ⟨[⟨"Paris"⟩], "mcq", "alice", [], 0, 86400, 5, 40⟩)
    ∧ (submit_quiz ⟨[("QZ", ⟨[⟨"Paris"⟩], "mcq", "alice", [], 0, 86400, 5, 40⟩)], [], [], 0⟩
        100 "QZ" "Bob" ["a", "b"]).2 = .error .answerCountMismatch
    ∧ (alGet (submit_quiz
        ⟨[("QZ", ⟨[⟨"Paris"⟩], "mcq", "alice", [], 0, 86400, 5, 40⟩)], [], [], 0⟩
        100 "QZ" "Bob" ["a", "b"]).1.quizzes "QZ").map Quiz.total_attempts = some 5 := by
  refine ⟨by decide, ?_⟩
  exact C3_mismatch_error_attempts_unchanged _ 100 "QZ" "Bob" ["a", "b"]
    ⟨[⟨"Paris"⟩], "mcq", "alice", [], 0, 86400, 5, 40⟩ (by decide) (by decide)

/-! ## C4 -/

/-- C4: a quiz created at time `now` is returned by `get_quiz` at any time
strictly before `now + 24h` and is not found at any time at or after
`now + 24h`, even though the quiz record is still present in the active
map. -/
theorem C4_expiry_window (s : QuizStore) (now : Int) (questions : List SQuestion)
    (quiz_type created_by code : String) (t1 t2 : Int)
    (h1 : t1 < now + 86400) (h2 : now + 86400 ≤ t2) :
    get_quiz (create_quiz s now questions quiz_type created_by code).1 t1 code
      = some { questions := questions, quiz_type := quiz_type,
               created_by := created_by, submissions := [], created_at := now,
               expires_at := now + 86400, total_attempts := 0, average_score := 0 }
    ∧ get_quiz (create_quiz s now questions quiz_type created_by code).1 t2 code = none
    ∧ alGet (create_quiz s now questions quiz_type created_by code).1.quizzes code ≠ none := by
  have hget : alGet (create_quiz s now questions quiz_type created_by code).1.quizzes code
      = some { questions := questions, quiz_type := quiz_type,
               created_by := created_by, submissions := [], created_at := now,
               expires_at := now + 86400, total_attempts := 0, average_score := 0 } := by
    simp only [create_quiz, expiryTime]
    split <;> exact alGet_alSet _ _ _
  refine ⟨?_, ?_, ?_⟩
  · simp [get_quiz, hget, h1]
  · simp [get_quiz, hget]
    omega
  · simp [hget]

/-- Witness for C4: creation at `T = 0`, lookups at `T + 23h59m = 86340`
and `T + 24h01m = 86460`. -/
theorem C4_witness :
    ((86340 : Int) < 0 + 86400) ∧ ((0 : Int) + 86400 ≤ 86460)
    ∧ (get_quiz (create_quiz (QuizStore.init 0) 0 [⟨"Paris"⟩] "mcq" "alice" "QZ").1
          86340 "QZ"
        = some { questions := [⟨"Paris"⟩], quiz_type := "mcq", created_by := "alice",
                 submissions := [], created_at := 0, expires_at := 0 + 86400,
                 total_attempts := 0, average_score := 0 }
      ∧ get_quiz (create_quiz (QuizStore.init 0) 0 [⟨"Paris"⟩] "mcq" "alice" "QZ").1
          86460 "QZ" = none
      ∧ alGet (create_quiz (QuizStore.init 0) 0 [⟨"Paris"⟩] "mcq" "alice" "QZ").1.quizzes
          "QZ" ≠ none) :=
  ⟨by decide, by decide,
    C4_expiry_window (QuizStore.init 0) 0 [⟨"Paris"⟩] "mcq" "alice" "QZ" 86340 86460
      (by decide) (by decide)⟩

/-! ## C10 -/

/-- C10: `submit_quiz` appends the submission to the store's submissions
map and to the quiz's own submission list BEFORE validating the answer
count, so a call failing the count check still leaves the submission
recorded in both places, while `total_attempts` and `average_score` are
untouched. -/
theorem C10_failed_submit_keeps_submission (s : QuizStore) (now : Int)
    (code name : String) (answers : List String) (quiz : Quiz)
    (hq : get_quiz s now code = some quiz)
    (hlen : answers.length ≠ quiz.questions.length) :
    (submit_quiz s now code name answers).2 = .error .answerCountMismatch
    ∧ alGet (submit_quiz s now code name answers).1.submissions code
        = some ((alGet s.submissions code).getD [] ++ [⟨name, answers, now⟩])
    ∧ alGet (submit_quiz s now code name answers).1.quizzes code
        = some { quiz with submissions := quiz.submissions ++ [⟨name, answers, now⟩] } := by
  rw [submit_quiz_mismatch_spec s now code name answers quiz hq hlen]
  exact ⟨rfl, alGet_alSet _ _ _, alGet_alSet _ _ _⟩

/-- Witness for C10 at a concrete failed submission. -/
theorem C10_witness :
    (submit_quiz ⟨[("QZ", ⟨[⟨"Paris"⟩], "mcq", "alice", [], 0, 86400, 2, 50⟩)], [], [], 0⟩
        100 "QZ" "Bob" []).2 = .error .answerCountMismatch
    ∧ alGet (submit_quiz
        ⟨[("QZ", ⟨[⟨"Paris"⟩], "mcq", "alice", [], 0, 86400, 2, 50⟩)], [], [], 0⟩
        100 "QZ" "Bob" []).1.submissions "QZ" = some ([] ++ [⟨"Bob", [], 100⟩])
    ∧ alGet (submit_quiz
        ⟨[("QZ", ⟨[⟨"Paris"⟩], "mcq", "alice", [], 0, 86400, 2, 50⟩)], [], [], 0⟩
        100 "QZ" "Bob" []).1.quizzes "QZ"
      = some ⟨[⟨"Paris"⟩], "mcq", "alice", [] ++ [⟨"Bob", [], 100⟩], 0, 86400, 2, 50⟩ :=
  C10_failed_submit_keeps_submission _ 100 "QZ" "Bob" []
    ⟨[⟨"Paris"⟩], "mcq", "alice", [], 0, 86400, 2, 50⟩ (by decide) (by decide)

/-! ## C5 -/

/-- `(correct_count / len(questions)) * 100`, the score percentage
`submit_quiz` computes for one submission. -/
def scorePct (questions : List SQuestion) (answers : List String) : ℚ :=
  (((questions.zip answers).filter (fun p => answerCorrect p.1 p.2)).length : ℚ)
    / (questions.length : ℚ) * 100

/-- The success path of `submit_quiz`: the stored quiz gets the submission
appended, `total_attempts` incremented, and the running-mean update
`avg' = (avg * (n' - 1) + p) / n'` with `n' = total_attempts + 1`. -/
theorem submit_quiz_ok_spec (s : QuizStore) (now : Int) (code name : String)
    (answers : List String) (quiz : Quiz)
    (hq : get_quiz s now code = some quiz)
    (hlen : answers.length = quiz.questions.length)
    (hnz : quiz.questions.length ≠ 0) :
    alGet (submit_quiz s now code name answers).1.quizzes code =
      some { quiz with
        submissions := quiz.submissions ++ [⟨name, answers, now⟩]
        total_attempts := quiz.total_attempts + 1
        average_score := (quiz.average_score * ((quiz.total_attempts + 1 : ℚ) - 1)
            + scorePct quiz.questions answers) / (quiz.total_attempts + 1 : ℚ) }
    ∧ ∃ r, (submit_quiz s now code name answers).2 = .ok r
        ∧ r.score_percentage = scorePct quiz.questions answers := by
  simp only [submit_quiz, hq]
  rw [if_neg (by simp [hlen]), if_neg hnz]
  exact ⟨alGet_alSet _ _ _, ⟨_, rfl, rfl⟩⟩

/-- Inversion of a successful `submit_quiz`: the quiz was active, the
answer count matched and the quiz was non-empty. -/
theorem submit_quiz_ok_inv (s : QuizStore) (now : Int) (code name : String)
    (answers : List String) (r : SubmitResponse)
    (h : (submit_quiz s now code name answers).2 = .ok r) :
    ∃ quiz, get_quiz s now code = some quiz
      ∧ answers.length = quiz.questions.length ∧ quiz.questions.length ≠ 0 := by
  unfold submit_quiz at h
  cases hg : get_quiz s now code with
  | none => rw [hg] at h; simp at h
  | some quiz =>
    rw [hg] at h
    simp only at h
    by_cases h1 : answers.length = quiz.questions.length
    · by_cases h2 : quiz.questions.length = 0
      · rw [if_neg (by simp [h1]), if_pos h2] at h; simp at h
      · exact ⟨quiz, rfl, h1, h2⟩
    · rw [if_pos h1] at h; simp at h

/-- Sequential replay of submissions (each step takes the store a
`submit_quiz` call leaves behind). -/
def submitSeq (now : Int) (code : String) : QuizStore → List (String × List String) → QuizStore
  | s, [] => s
  | s, (nm, ans) :: rest => submitSeq now code (submit_quiz s now code nm ans).1 rest

/-- All submissions in the sequence succeed. -/
def submitSeqOk (now : Int) (code : String) : QuizStore → List (String × List String) → Bool
  | _, [] => true
  | s, (nm, ans) :: rest =>
    (match (submit_quiz s now code nm ans).2 with
     | .ok _ => true
     | .error _ => false)
    && submitSeqOk now code (submit_quiz s now code nm ans).1 rest

/-- Invariant of a successful submission sequence: `total_attempts` counts
the submissions and `average_score * total_attempts` accumulates the exact
sum of the submitted score percentages. -/
theorem submitSeq_stats (now : Int) (code : String) :
    ∀ (subs : List (String × List String)) (s : QuizStore) (quiz : Quiz),
    alGet s.quizzes code = some quiz →
    submitSeqOk now code s subs = true →
    ∃ quiz', alGet (submitSeq now code s subs).quizzes code = some quiz'
      ∧ quiz'.questions = quiz.questions
      ∧ quiz'.total_attempts = quiz.total_attempts + subs.length
      ∧ quiz'.average_score * (quiz'.total_attempts : ℚ)
          = quiz.average_score * (quiz.total_attempts : ℚ)
            + ((subs.map (fun p => scorePct quiz.questions p.2)).sum : ℚ) := by
  intro subs
  induction subs with
  | nil =>
    intro s quiz hq _
    exact ⟨quiz, hq, rfl, by simp, by simp⟩
  | cons p rest ih =>
    intro s quiz hq hok
    obtain ⟨nm, ans⟩ := p
    simp only [submitSeqOk, Bool.and_eq_true] at hok
    obtain ⟨hok1, hokr⟩ := hok
    cases hr : (submit_quiz s now code nm ans).2 with
    | error e => rw [hr] at hok1; simp at hok1
    | ok r =>
      obtain ⟨quizg, hget, hlen, hnz⟩ := submit_quiz_ok_inv s now code nm ans r hr
      have hqg : quizg = quiz := by
        unfold get_quiz at hget
        rw [hq] at hget
        by_cases hlt : now < quiz.expires_at
        · simp [hlt] at hget; exact hget.symm
        · simp [hlt] at hget
      subst hqg
      obtain ⟨hstore, -⟩ := submit_quiz_ok_spec s now code nm ans quizg hget hlen hnz
      obtain ⟨quiz'', hget'', hqs, hta, havg⟩ := ih (submit_quiz s now code nm ans).1 _ hstore hokr
      refine ⟨quiz'', hget'', by simpa using hqs, ?_, ?_⟩
      · simp only [List.length_cons]
        simp only at hta
        omega
      have hne : ((quizg.total_attempts : ℚ) + 1) ≠ 0 := by positivity
      simp only at havg
      rw [havg]
      simp only [List.map_cons, List.sum_cons]
      push_cast
      field_simp
      ring

/-- C5: every successful `submit_quiz` increments `total_attempts` by
exactly 1 and sets `average_score` to
`(old_average * (new_total - 1) + score_percentage) / new_total`; and,
under exact arithmetic, after any sequence of successful submissions to a
fresh quiz the average equals the mean of all submitted score
percentages. -/
theorem C5_running_mean
    (now : Int) (code name : String) (answers : List String)
    (s : QuizStore) (quiz : Quiz) (r : SubmitResponse)
    (hq : get_quiz s now code = some quiz)
    (hr : (submit_quiz s now code name answers).2 = .ok r)
    (s0 : QuizStore) (quiz0 : Quiz) (subs : List (String × List String))
    (hq0 : alGet s0.quizzes code = some quiz0)
    (h00 : quiz0.total_attempts = 0)
    (h0a : quiz0.average_score = 0)
    (hok : submitSeqOk now code s0 subs = true)
    (hsne : subs ≠ []) :
    (∃ quiz', alGet (submit_quiz s now code name answers).1.quizzes code = some quiz'
      ∧ quiz'.total_attempts = quiz.total_attempts + 1
      ∧ quiz'.average_score
          = (quiz.average_score * ((quiz.total_attempts + 1 : ℚ) - 1) + r.score_percentage)
              / (quiz.total_attempts + 1 : ℚ))
    ∧ (∃ quizF, alGet (submitSeq now code s0 subs).quizzes code = some quizF
      ∧ quizF.total_attempts = subs.length
      ∧ quizF.average_score
          = (subs.map (fun p => scorePct quiz0.questions p.2)).sum / (subs.length : ℚ)) := by
  constructor
  · obtain ⟨quizg, hget, hlen, hnz⟩ := submit_quiz_ok_inv s now code name answers r hr
    have hg : quizg = quiz := by rw [hget] at hq; exact Option.some_inj.mp hq
    subst hg
    obtain ⟨hstore, r', hr', hsp⟩ :=
      submit_quiz_ok_spec s now code name answers quizg hget hlen hnz
    have hrr : r' = r := by
      rw [hr] at hr'
      exact (Except.ok.inj hr').symm
    subst hrr
    exact ⟨_, hstore, rfl, by rw [hsp]⟩
  · obtain ⟨quizF, hF, hqs, hta, havg⟩ := submitSeq_stats now code subs s0 quiz0 hq0 hok
    have htaF : quizF.total_attempts = subs.length := by omega
    have hlen0 : ((subs.length : ℚ)) ≠ 0 := by
      have : subs.length ≠ 0 := fun h => hsne (List.length_eq_zero.mp h)
      exact_mod_cast this
    refine ⟨quizF, hF, htaF, ?_⟩
    rw [eq_div_iff hlen0]
    rw [htaF] at havg
    rw [h00, h0a] at havg
    simpa using havg

/-- Witness for C5: one question, one correct submission; the average
becomes 100 both via the single-call formula and via the sequence mean. -/
theorem C5_witness :
    ∃ quiz', alGet (submit_quiz
        ⟨[("QZ", ⟨[⟨"Paris"⟩], "mcq", "alice", [], 0, 86400, 0, 0⟩)], [], [], 0⟩
        100 "QZ" "Bob" ["paris"]).1.quizzes "QZ" = some quiz'
      ∧ quiz'.total_attempts = 1 ∧ quiz'.average_score = 100 := by
  have h := C5_running_mean 100 "QZ" "Bob" ["paris"]
      ⟨[("QZ", ⟨[⟨"Paris"⟩], "mcq", "alice", [], 0, 86400, 0, 0⟩)], [], [], 0⟩
      ⟨[⟨"Paris"⟩], "mcq", "alice", [], 0, 86400, 0, 0⟩
      ⟨"Bob", 100, 1, 100, 1, ["paris"], [⟨1, true, "paris", "Paris"⟩]⟩
      (by decide) (by norm_num [submit_quiz, get_quiz, alGet, alSet, answerCorrect]; decide)
      ⟨[("QZ", ⟨[⟨"Paris"⟩], "mcq", "alice", [], 0, 86400, 0, 0⟩)], [], [], 0⟩
      ⟨[⟨"Paris"⟩], "mcq", "alice", [], 0, 86400, 0, 0⟩
      [("Bob", ["paris"])]
      (by decide) rfl rfl (by decide) (by decide)
  obtain ⟨⟨quiz', h1, h2, h3⟩, -⟩ := h
  refine ⟨quiz', h1, h2, ?_⟩
  rw [h3]
  norm_num

/-! ## String helpers modelling Python str methods (structural, so concrete
runs reduce inside the kernel) -/

/-- Python `s.isalnum()`: non-empty and every character alphanumeric. -/
def pyIsAlnum (s : String) : Bool :=
  !s.data.isEmpty && s.data.all Char.isAlphanum

/-- Python `s.capitalize()`: first character upper-cased, rest lowered. -/
def pyCapitalize (s : String) : String :=
  match s.data with
  | [] => ⟨[]⟩
  | c :: cs => ⟨c.toUpper :: cs.map Char.toLower⟩

/-- Python `sub in s` (substring containment), on char lists. -/
def infixOfB (sub : List Char) : List Char → Bool
  | [] => sub.isEmpty
  | c :: t => sub.isPrefixOf (c :: t) || infixOfB sub t

/-- Python `sub in s` on strings. -/
def strIncludes (s sub : String) : Bool := infixOfB sub.data s.data

/-- Python `s.startswith(pre)`. -/
def strStarts (s pre : String) : Bool := pre.data.isPrefixOf s.data

/-- Python `s[:n]`. -/
def strTake (s : String) (n : Nat) : String := ⟨s.data.take n⟩

/-- `list(dict.fromkeys(l))`: stable deduplication keeping first
occurrences. -/
def pyDedup (seen : List String) : List String → List String
  | [] => []
  | a :: l => if a ∈ seen then pyDedup seen l else a :: pyDedup (seen ++ [a]) l

/-- Python `s.replace(old, new, 1)` on char lists. -/
def replaceFirstAux (old new : List Char) : List Char → List Char
  | [] => []
  | c :: cs =>
    if old.isPrefixOf (c :: cs) then new ++ (c :: cs).drop old.length
    else c :: replaceFirstAux old new cs

/-- Python `s.replace(old, new, 1)`. -/
def pyReplaceFirst (s old new : String) : String :=
  ⟨replaceFirstAux old.data new.data s.data⟩

/-- Python `s.replace(old, new)` (all occurrences), scanning left to right
without overlap.  A positive `skip` means the tail of a match is still
being consumed.  For `old = ""` this model returns `s` unchanged; the
source only ever replaces words of length > 3. -/
def replaceAllGo (old new : List Char) : List Char → Nat → List Char
  | [], _ => []
  | _ :: cs, skip + 1 => replaceAllGo old new cs skip
  | c :: cs, 0 =>
    if old ≠ [] ∧ old.isPrefixOf (c :: cs) then
      new ++ replaceAllGo old new cs (old.length - 1)
    else c :: replaceAllGo old new cs 0

/-- Python `s.replace(old, new)`. -/
def pyReplaceAll (s old new : String) : String :=
  ⟨replaceAllGo old.data new.data s.data 0⟩

/-- Python `s.split()` (whitespace split, empty pieces discarded); the
model splits on the space character only, which is all the normalized
sentences contain. -/
def pySplitWS (s : String) : List String :=
  ((s.data.splitOn ' ').map (fun l => (⟨l⟩ : String))).filter (fun w => !w.isEmpty)

/-- Python `' '.join(l)`. -/
def joinSpace : List String → String
  | [] => ""
  | [s] => s
  | s :: rest => s ++ " " ++ joinSpace rest

/-- Python `s.strip()`. -/
def pyStrip (s : String) : String :=
  ⟨((s.data.dropWhile Char.isWhitespace).reverse.dropWhile Char.isWhitespace).reverse⟩

/-! ## quiz_generator.py : data model -/

/-- A sentence together with the token/tag list the external NLP services
(`word_tokenize` + `pos_tag`) produce for it.  The tagger is an opaque
capability, so its output is an input of the model. -/
structure TaggedSentence where
  text : String
  tokens : List (String × String)
deriving Repr, DecidableEq

/-- A question dict emitted by `generate_quiz` (`options` is empty for
true/false questions, whose dicts carry no `options` key). -/
structure GenQuestion where
  question : String
  qtype : String
  options : List String
  correct : Nat
deriving Repr, DecidableEq

/-- `random.choice(l)` driven by one value of the random stream. -/
def listPick (l : List String) (n : Nat) : String := l.getD (n % l.length) ""

/-- `random.choice` on (word, tag) pairs. -/
def listPickWT (l : List (String × String)) (n : Nat) : String × String :=
  l.getD (n % l.length) ("", "")

/-- `tag.startswith(('NN', 'VB', 'JJ'))`. -/
def tagIsContent (tag : String) : Bool :=
  strStarts tag "NN" || strStarts tag "VB" || strStarts tag "JJ"

/-! ## quiz_generator.py : MCQ strategy (generate_quiz, quiz_type='mcq') -/

/-- The word filter of the mcq branch of `generate_quiz`: content tag, not
a stop word, not an already-used answer, length > 3. -/
def importantWordsMCQ (stop : String → Bool) (used : List String)
    (tokens : List (String × String)) : List (String × String) :=
  tokens.filter (fun wt =>
    tagIsContent wt.2 && !stop (pyLower wt.1) && !(used.contains (pyLower wt.1))
      && wt.1.length > 3)

/-- `generic_options.get(tag_prefix, generic_options['NN'])` of the mcq
branch of `generate_quiz`. -/
def genericOptionsGQ (tagp : String) : List String :=
  if tagp = "NN" then ["object", "item", "thing", "element", "part", "system", "component"]
  else if tagp = "VB" then ["make", "take", "give", "find", "show", "create", "perform"]
  else if tagp = "JJ" then ["good", "new", "first", "last", "long", "important", "different"]
  else ["object", "item", "thing", "element", "part", "system", "component"]

/-- The `while len(options) < 4` loops of the mcq branch: draw a generic
option, append it if it is not already present.  The loop's termination
relies on randomness, so the model consumes the finite random stream and
answers `none` (divergence) if it runs dry before four options exist. -/
def fillLoop (gens : List String) : List Nat → List String → Option (List String × List Nat)
  | [], opts => if opts.length < 4 then none else some (opts, [])
  | n :: rest, opts =>
    if opts.length < 4 then
      if listPick gens n ∈ opts then fillLoop gens rest opts
      else fillLoop gens rest (opts ++ [listPick gens n])
    else some (opts, n :: rest)

/-- Option construction of the mcq branch of `generate_quiz` for a chosen
word/tag: seed with the answer, extend with up to two sampled same-tag
words, fill with generics, dedup to at most 4, fill again, shuffle, and
locate the answer's index. -/
def mcqBuildOptions (sample : List String → Nat → List String)
    (shuffle : List String → List String) (word tag : String)
    (tokens : List (String × String)) (rnd : List Nat) :
    Option (List String × Nat × List Nat) :=
  let options0 := [word]
  let similar_words := (tokens.filter (fun wt => wt.2 = tag && wt.1 ≠ word)).map (·.1)
  let options1 :=
    if !similar_words.isEmpty then
      options0 ++ sample similar_words (min 2 similar_words.length)
    else options0
  let gens := genericOptionsGQ (strTake tag 2)
  match fillLoop gens rnd options1 with
  | none => none
  | some (options2, rnd2) =>
    let options3 := (pyDedup [] options2).take 4
    match fillLoop gens rnd2 options3 with
    | none => none
    | some (options4, rnd3) =>
      let shuffled := shuffle options4
      some (shuffled, shuffled.indexOf word, rnd3)

/-- The sentence loop of the mcq branch of `generate_quiz`, threading the
question list, the used-answer set and the random stream. -/
def mcqLoop (stop : String → Bool) (sample : List String → Nat → List String)
    (shuffle : List String → List String) (num_questions : Nat) :
    List TaggedSentence → List Nat → List String → List GenQuestion →
    Option (List GenQuestion)
  | [], _, _, qs => some qs
  | ts :: rest, rnd, used, qs =>
    let imp := importantWordsMCQ stop used ts.tokens
    if imp.isEmpty then mcqLoop stop sample shuffle num_questions rest rnd used qs
    else
      let wt := listPickWT imp (rnd.headD 0)
      let rnd1 := rnd.tail
      if used.contains (pyLower wt.1) then
        mcqLoop stop sample shuffle num_questions rest rnd1 used qs
      else
        match mcqBuildOptions sample shuffle wt.1 wt.2 ts.tokens rnd1 with
        | none => none
        | some (options, correct_index, rnd2) =>
          let q : GenQuestion :=
            { question := "What is the correct word in: '"
                ++ pyReplaceAll ts.text wt.1 "_____" ++ "'"
              qtype := "mcq"
              options := options
              correct := correct_index }
          let qs' := qs ++ [q]
          let used' := used ++ [pyLower wt.1]
          if qs'.length ≥ num_questions then some qs'
          else mcqLoop stop sample shuffle num_questions rest rnd2 used' qs'

/-! ## quiz_generator.py : true/false strategy -/

/-- One iteration of the true/false branch of `generate_quiz`: a fair coin
(one random draw); on "false", if the sentence has more than 3
whitespace-separated words, overwrite a random position with a random
negation word. -/
def tfLoop : List TaggedSentence → List Nat → List GenQuestion
  | [], _ => []
  | ts :: rest, rnd =>
    let correct := (rnd.headD 0) % 2 = 0
    let rnd1 := rnd.tail
    let (sentence, rnd2) :=
      if !correct then
        let words := pySplitWS ts.text
        if words.length > 3 then
          let pos := (rnd1.headD 0) % words.length
          let w := listPick ["not", "never", "rarely", "hardly"] (rnd1.tail.headD 0)
          (joinSpace (words.set pos w), rnd1.tail.tail)
        else (ts.text, rnd1)
      else (ts.text, rnd1)
    { question := sentence, qtype := "true_false", options := []
      correct := if correct then 0 else 1 } :: tfLoop rest rnd2

/-! ## quiz_generator.py : fill-in-the-blanks strategy -/

/-- The word filter of `generate_fill_blanks`: content tag, length > 3,
not a stop word, answer not already used. -/
def importantWordsFB (stop : String → Bool) (used : List String)
    (tokens : List (String × String)) : List String :=
  (tokens.filter (fun wt =>
    tagIsContent wt.2 && wt.1.length > 3 && !stop (pyLower wt.1)
      && !(used.contains (pyLower wt.1)))).map (·.1)

/-- The sentence loop of `generate_fill_blanks`. -/
def fbLoop (stop : String → Bool) (num_questions : Nat) :
    List TaggedSentence → List Nat → List String → List GenQuestion → List GenQuestion
  | [], _, _, qs => qs
  | ts :: rest, rnd, used, qs =>
    if qs.length ≥ num_questions then qs
    else
      let imp := importantWordsFB stop used ts.tokens
      if imp.isEmpty then fbLoop stop num_questions rest rnd used qs
      else
        let w := listPick imp (rnd.headD 0)
        let rnd1 := rnd.tail
        if used.contains (pyLower w) then fbLoop stop num_questions rest rnd1 used qs
        else
          fbLoop stop num_questions rest rnd1 (used ++ [pyLower w])
            (qs ++ [{ question := pyReplaceFirst ts.text w "_____"
                      qtype := "fill_blanks"
                      options := [w]
                      correct := 0 }])

/-- `generate_fill_blanks(text, num_questions)`, the sentences arriving
pre-segmented and pre-tagged from the external NLP services. -/
def generate_fill_blanks (stop : String → Bool) (sentences : List TaggedSentence)
    (num_questions : Nat) (rnd : List Nat) : List GenQuestion :=
  fbLoop stop num_questions sentences rnd [] []

/-! ## quiz_generator.py : generate_quiz dispatcher -/

/-- `raise ValueError(f"Unsupported quiz type: ...")`. -/
inductive GenError where
  | unsupportedQuizType (t : String)
deriving Repr, DecidableEq

/-- `generate_quiz(file_path, num_questions, quiz_type)` after text
extraction and sentence segmentation/tagging (external capabilities whose
output is the `sentences` input).  The outer `Option` models divergence of
the mcq option loops (`none`); `Except` models the raised errors. -/
def generate_quiz_model (stop : String → Bool)
    (sample : List String → Nat → List String)
    (shuffle : List String → List String) (sentences : List TaggedSentence)
    (num_questions : Nat) (quiz_type : String) (rnd : List Nat) :
    Option (Except GenError (List GenQuestion)) :=
  if quiz_type = "mcq" then
    (mcqLoop stop sample shuffle num_questions
      (sentences.take (num_questions * 2)) rnd [] []).map .ok
  else if quiz_type = "true_false" then
    some (.ok (tfLoop (sentences.take num_questions) rnd))
  else if quiz_type = "fill_blanks" then
    some (.ok (generate_fill_blanks stop sentences num_questions rnd))
  else
    some (.error (.unsupportedQuizType quiz_type))

/-! ## objective.py : ObjectiveTest -/

namespace ObjectiveTest

/-- `ObjectiveTest.preprocess_text`: keep sentences with more than 8
alphanumeric tokens of which more than 5 are content (non-stop) words.
`sent_tokenize` and `word_tokenize` are external capabilities: the
sentence list is an input and the tokenizer a parameter. -/
def preprocess_text (tokenize : String → List String) (stop : String → Bool)
    (sentences : List String) : List String :=
  sentences.filter (fun sent =>
    let words := (tokenize (pyLower sent)).filter pyIsAlnum
    words.length > 8 && (words.filter (fun w => !stop w)).length > 5)

/-- `ObjectiveTest.generate_distractors`: context words that are
alphanumeric non-stop tokens, longer than 3 characters and not contained
in the answer, title-cased and deduplicated; sample 3 when at least 3
exist, otherwise the fixed synthetic fallbacks.  `list(set(...))` has
unspecified ordering in Python; the model dedups keeping first
occurrences, which only matters on the sampled branch. -/
def generate_distractors (tokenize : String → List String) (stop : String → Bool)
    (sample : List String → Nat → List String) (answer context : String) :
    List String :=
  let words := tokenize (pyLower context)
  let words := words.filter (fun w => pyIsAlnum w && !stop w)
  let distractors := pyDedup []
    ((words.filter (fun w => !strIncludes (pyLower answer) w && w.length > 3)).map
      pyCapitalize)
  if distractors.length ≥ 3 then sample distractors 3
  else ["Not " ++ answer, "None of the above", "All of the above"]

/-- `ObjectiveTest.generate_test`: raises when fewer meaningful sentences
than requested questions exist; otherwise builds one formatted 4-option
question per sampled sentence using the external text-generation and
question-answering models (opaque function parameters). -/
def generate_test (tokenize : String → List String) (stop : String → Bool)
    (genModel : String → String) (qaModel : String → String → String)
    (sample : List String → Nat → List String)
    (dSample : List String → Nat → List String)
    (shuffle : List String → List String)
    (sentences : List String) (num_questions : Nat) :
    Except String (List String × List String) :=
  let meaningful_sentences := preprocess_text tokenize stop sentences
  if meaningful_sentences.length < num_questions then
    .error ("Error generating questions: "
      ++ "Not enough content to generate requested number of questions")
  else
    let selected_sentences := sample meaningful_sentences num_questions
    .ok (selected_sentences.foldl
      (fun (acc : List String × List String) context =>
        let prompt := "Generate a factual question about this text: " ++ context
        let question := genModel prompt
        let correct_answer := qaModel question context
        let distractors := generate_distractors tokenize stop dSample correct_answer context
        let options := shuffle (correct_answer :: distractors)
        let correct_option := String.singleton (Char.ofNat (65 + options.indexOf correct_answer))
        let formatted_question := options.enum.foldl
          (fun acc2 p => acc2 ++ String.singleton (Char.ofNat (65 + p.1)) ++ ") " ++ p.2 ++ "\n")
          (question ++ "\n")
        (acc.1 ++ [pyStrip formatted_question], acc.2 ++ [correct_option]))
      ([], []))

end ObjectiveTest

/-! ## subjective.py : SubjectiveTest -/

namespace SubjectiveTest

/-- The paragraph grouping of `SubjectiveTest.preprocess_text`: flush the
current group at 3 sentences, append the remainder if non-empty. -/
def paraChunks : List String → List String → List String
  | current, [] => if current.isEmpty then [] else [joinSpace current]
  | current, s :: rest =>
    let current' := current ++ [s]
    if current'.length ≥ 3 then joinSpace current' :: paraChunks [] rest
    else paraChunks current' rest

/-- `SubjectiveTest.preprocess_text` on the externally segmented
sentences. -/
def preprocess_text (sentences : List String) : List String :=
  paraChunks [] sentences

/-- `SubjectiveTest.generate_question_types`. -/
def generate_question_types : List String :=
  ["Explain how", "Describe why", "Analyze the", "Compare and contrast",
   "What are the implications of", "Evaluate the importance of",
   "Discuss the relationship between", "What conclusions can be drawn about",
   "How would you interpret", "What evidence supports"]

/-- The per-paragraph loop of `SubjectiveTest.generate_test`. -/
def subjLoop (genModel : String → String) (num_questions : Nat) :
    List String → List Nat → List String → List String → List String × List String
  | [], _, qs, as => (qs, as)
  | context :: rest, rnd, qs, as =>
    let question := genModel
      ("Generate a thought-provoking question about this text: " ++ context)
    let question_type := listPick generate_question_types (rnd.headD 0)
    let transformed_question := question_type ++ " " ++ pyLower question
    let sample_answer := "Sample Answer: " ++ context
    let qs' := qs ++ [transformed_question]
    let as' := as ++ [sample_answer]
    if qs'.length ≥ num_questions then (qs', as')
    else subjLoop genModel num_questions rest rnd.tail qs' as'

/-- `SubjectiveTest.generate_test`: raises when fewer paragraphs than
requested questions exist; otherwise pairs generated questions with their
source paragraph as model answer. -/
def generate_test (genModel : String → String)
    (sample : List String → Nat → List String)
    (sentences : List String) (num_questions : Nat) (rnd : List Nat) :
    Except String (List String × List String) :=
  let paragraphs := preprocess_text sentences
  if paragraphs.length < num_questions then
    .error ("Error generating subjective questions: "
      ++ "Not enough content to generate requested number of questions")
  else
    let selected_paragraphs := sample paragraphs num_questions
    .ok (subjLoop genModel num_questions selected_paragraphs rnd [] [])

end SubjectiveTest

/-! ## C6 -/

/-- C6: for every answer string, the distractor generator called with an
empty context returns, without raising, exactly the three synthetic
fallbacks `["Not {answer}", "None of the above", "All of the above"]` in
that order (the external tokenizer yields no tokens on the empty
string). -/
theorem C6_empty_context_fallback (tokenize : String → List String)
    (stop : String → Bool) (sample : List String → Nat → List String)
    (answer : String) (htok : tokenize "" = []) :
    ObjectiveTest.generate_distractors tokenize stop sample answer ""
      = ["Not " ++ answer, "None of the above", "All of the above"] := by
  unfold ObjectiveTest.generate_distractors
  have h0 : pyLower "" = "" := rfl
  rw [h0, htok]
  rfl

/-- Witness for C6 at `answer = "Paris"`: exactly
`["Not Paris", "None of the above", "All of the above"]`. -/
theorem C6_witness :
    ((fun _ : String => ([] : List String)) "" = ([] : List String))
    ∧ ObjectiveTest.generate_distractors (fun _ => []) (fun _ => false)
        (fun l k => l.take k) "Paris" ""
        = ["Not Paris", "None of the above", "All of the above"] :=
  ⟨rfl, by
    rw [C6_empty_context_fallback (fun _ => []) (fun _ => false)
      (fun l k => l.take k) "Paris" rfl]
    decide⟩

/-! ## C2 -/

/-- `generate_fill_blanks` emits at most one question per sentence. -/
theorem fbLoop_length (stop : String → Bool) (num : Nat) :
    ∀ (ss : List TaggedSentence) (rnd : List Nat) (used : List String)
      (qs : List GenQuestion),
    (fbLoop stop num ss rnd used qs).length ≤ qs.length + ss.length := by
  intro ss
  induction ss with
  | nil => intro rnd used qs; simp [fbLoop]
  | cons ts rest ih =>
    intro rnd used qs
    simp only [fbLoop, List.length_cons]
    split
    · omega
    · split
      · exact le_trans (ih _ _ _) (by omega)
      · split
        · exact le_trans (ih _ _ _) (by omega)
        · exact le_trans (ih _ _ _) (by simp [List.length_append]; omega)

/-- C2 counterexample: the claim says every quiz type fails with an
insufficient-content error rather than returning fewer than
`num_questions` questions.  The rule-based `generate_quiz` does not: with
no sentences and `num_questions = 1`, the fill-blanks branch returns an
empty question list without raising. -/
theorem C2_counterexample :
    generate_quiz_model (fun _ => false) (fun l k => l.take k) id [] 1 "fill_blanks" []
      = some (.ok ([] : List GenQuestion))
    ∧ ([] : List GenQuestion).length < 1 :=
  ⟨rfl, by decide⟩

/-- C2 amended: the generative strategies (`ObjectiveTest.generate_test`,
`SubjectiveTest.generate_test`) fail with an insufficient-content error
when the text yields fewer meaningful sentences / paragraphs than
`num_questions`; the rule-based `generate_quiz` does not raise for short
content — its fill-blanks branch returns without error at most one
question per sentence, so it can return fewer than `num_questions`
silently. -/
theorem C2_amended_insufficient_content
    (tokenize : String → List String) (stop : String → Bool)
    (genModel : String → String) (qaModel : String → String → String)
    (sampleO dSample : List String → Nat → List String)
    (shuffleO : List String → List String)
    (sentencesO : List String) (nO : Nat)
    (hO : (ObjectiveTest.preprocess_text tokenize stop sentencesO).length < nO)
    (genModelS : String → String) (sampleS : List String → Nat → List String)
    (sentencesS : List String) (nS : Nat) (rndS : List Nat)
    (hS : (SubjectiveTest.preprocess_text sentencesS).length < nS)
    (stopF : String → Bool) (sampleF : List String → Nat → List String)
    (shuffleF : List String → List String) (sentencesF : List TaggedSentence)
    (nF : Nat) (rndF : List Nat) :
    ObjectiveTest.generate_test tokenize stop genModel qaModel sampleO dSample
        shuffleO sentencesO nO
      = .error ("Error generating questions: "
          ++ "Not enough content to generate requested number of questions")
    ∧ SubjectiveTest.generate_test genModelS sampleS sentencesS nS rndS
      = .error ("Error generating subjective questions: "
          ++ "Not enough content to generate requested number of questions")
    ∧ ∃ qs, generate_quiz_model stopF sampleF shuffleF sentencesF nF "fill_blanks" rndF
        = some (.ok qs) ∧ qs.length ≤ sentencesF.length := by
  refine ⟨?_, ?_, ?_⟩
  · unfold ObjectiveTest.generate_test
    rw [if_pos hO]
  · unfold SubjectiveTest.generate_test
    rw [if_pos hS]
  · refine ⟨generate_fill_blanks stopF sentencesF nF rndF, ?_, ?_⟩
    · unfold generate_quiz_model
      rw [if_neg (by decide), if_neg (by decide), if_pos rfl]
    · simpa [generate_fill_blanks] using fbLoop_length stopF nF sentencesF rndF [] []

/-- Witness for C2 (amended) at concrete inputs: no sentences at all,
`num_questions = 1`. -/
theorem C2_witness :
    ((ObjectiveTest.preprocess_text (fun _ => []) (fun _ => false) []).length < 1)
    ∧ ((SubjectiveTest.preprocess_text []).length < 1)
    ∧ (ObjectiveTest.generate_test (fun _ => []) (fun _ => false) (fun s => s)
          (fun _ _ => "") (fun l k => l.take k) (fun l k => l.take k) (fun l => l) [] 1
        = .error ("Error generating questions: "
            ++ "Not enough content to generate requested number of questions")
      ∧ SubjectiveTest.generate_test (fun s => s) (fun l k => l.take k) [] 1 []
        = .error ("Error generating subjective questions: "
            ++ "Not enough content to generate requested number of questions")
      ∧ ∃ qs, generate_quiz_model (fun _ => false) (fun l k => l.take k) (fun l => l)
            [] 1 "fill_blanks" [] = some (.ok qs)
          ∧ qs.length ≤ ([] : List TaggedSentence).length) :=
  ⟨by decide, by decide,
    C2_amended_insufficient_content (fun _ => []) (fun _ => false) (fun s => s)
      (fun _ _ => "") (fun l k => l.take k) (fun l k => l.take k) (fun l => l) [] 1
      (by decide) (fun s => s) (fun l k => l.take k) [] 1 [] (by decide)
      (fun _ => false) (fun l k => l.take k) (fun l => l) [] 1 []⟩

/-! ## quiz_generator.py : process_sentence (optimized mcq variant) -/

/-- A question dict returned by `process_sentence`; unlike the
`generate_quiz` mcq dicts it also records `correct_answer`. -/
structure PSQuestion where
  question : String
  options : List String
  correct : Nat
  correct_answer : String
  qtype : String
deriving Repr, DecidableEq

/-- The `while len(options) < 4` loop of `process_sentence`: append a
random tag-appropriate generic then dedup (`list(dict.fromkeys(...))`).
When the token's tag matches none of the three branches the Python loop
makes no progress and never terminates; the model returns `none` there, as
it does when the random stream runs dry. -/
def fillLoopPS (tag : String) : List Nat → List String → Option (List String × List Nat)
  | [], opts => if opts.length < 4 then none else some (opts, [])
  | n :: rest, opts =>
    if opts.length < 4 then
      if strStarts tag "NN" then
        fillLoopPS tag rest
          (pyDedup [] (opts ++ [listPick ["object", "item", "thing", "element", "part"] n]))
      else if strStarts tag "VB" then
        fillLoopPS tag rest
          (pyDedup [] (opts ++ [listPick ["make", "take", "give", "find", "show"] n]))
      else if strStarts tag "JJ" then
        fillLoopPS tag rest
          (pyDedup [] (opts ++ [listPick ["good", "new", "first", "last", "long"] n]))
      else none
    else some (opts, n :: rest)

/-- `process_sentence(sentence, used_words)`.  The Python function returns
`None` for a sentence with no usable word; the model's `none` also covers
divergence of the option loop. -/
def process_sentence (stop : String → Bool)
    (sample : List String → Nat → List String)
    (shuffle : List String → List String)
    (ts : TaggedSentence) (used_words : List String) (rnd : List Nat) :
    Option PSQuestion :=
  let important_words := importantWordsMCQ stop used_words ts.tokens
  if important_words.isEmpty then none
  else
    let wt := listPickWT important_words (rnd.headD 0)
    let rnd1 := rnd.tail
    let options0 := [wt.1]
    let similar_words := (ts.tokens.filter (fun p => p.2 = wt.2 && p.1 ≠ wt.1)).map (·.1)
    let options1 :=
      if !similar_words.isEmpty then
        options0 ++ sample similar_words (min 2 similar_words.length)
      else options0
    match fillLoopPS wt.2 rnd1 options1 with
    | none => none
    | some (options2, _) =>
      let shuffled := shuffle options2
      some { question := "What is the correct word in: '"
               ++ pyReplaceAll ts.text wt.1 "_____" ++ "'"
             options := shuffled.take 4
             correct := shuffled.indexOf wt.1
             correct_answer := wt.1
             qtype := "mcq" }

/-! ## List lemmas for the option-construction proofs -/

theorem listPick_mem (l : List String) (n : Nat) (h : l ≠ []) : listPick l n ∈ l := by
  unfold listPick
  have hlt : n % l.length < l.length := Nat.mod_lt _ (List.length_pos.mpr h)
  rw [List.getD_eq_getElem l "" hlt]
  exact List.getElem_mem _

theorem listPickWT_mem (l : List (String × String)) (n : Nat) (h : l ≠ []) :
    listPickWT l n ∈ l := by
  unfold listPickWT
  have hlt : n % l.length < l.length := Nat.mod_lt _ (List.length_pos.mpr h)
  rw [List.getD_eq_getElem l ("", "") hlt]
  exact List.getElem_mem _

theorem getD_indexOf (l : List String) (a : String) (h : a ∈ l) :
    l.getD (l.indexOf a) "" = a := by
  induction l with
  | nil => cases h
  | cons b t ih =>
    by_cases hba : b = a
    · subst hba
      simp [List.indexOf_cons_self]
    · have ht : a ∈ t := by
        cases h with
        | head => exact absurd rfl hba
        | tail _ h' => exact h'
      have hstep : (b :: t).indexOf a = t.indexOf a + 1 :=
        List.indexOf_cons_ne t hba
      rw [hstep]
      simpa using ih ht

theorem indexOf_lt_of_mem (l : List String) (a : String) (h : a ∈ l) :
    l.indexOf a < l.length :=
  List.indexOf_lt_length.mpr h

/-! ### pyDedup lemmas -/

theorem pyDedup_sublist (seen : List String) (l : List String) :
    (pyDedup seen l).Sublist l := by
  induction l generalizing seen with
  | nil => simp [pyDedup]
  | cons a t ih =>
    unfold pyDedup
    split
    · exact (ih seen).trans (List.sublist_cons_self a t)
    · exact List.Sublist.cons₂ a (ih (seen ++ [a]))

theorem pyDedup_not_mem_seen (seen : List String) (l : List String) (x : String)
    (hx : x ∈ pyDedup seen l) : x ∉ seen := by
  induction l generalizing seen with
  | nil => simp [pyDedup] at hx
  | cons a t ih =>
    unfold pyDedup at hx
    split at hx
    · exact ih seen hx
    · cases hx with
      | head =>
        rename_i hns
        exact hns
      | tail _ h' =>
        intro hxs
        exact ih (seen ++ [a]) h' (by simp [hxs])

theorem pyDedup_nodup (seen : List String) (l : List String) :
    (pyDedup seen l).Nodup := by
  induction l generalizing seen with
  | nil => simp [pyDedup]
  | cons a t ih =>
    unfold pyDedup
    split
    · exact ih seen
    · refine List.nodup_cons.mpr ⟨?_, ih (seen ++ [a])⟩
      intro hmem
      exact pyDedup_not_mem_seen (seen ++ [a]) t a hmem (by simp)

theorem pyDedup_cons_not_seen (seen : List String) (a : String) (t : List String)
    (h : a ∉ seen) : pyDedup seen (a :: t) = a :: pyDedup (seen ++ [a]) t := by
  simp [pyDedup, h]

/-! ### fillLoop lemmas -/

theorem fillLoop_append (gens : List String) :
    ∀ (rnd : List Nat) (opts o : List String) (r : List Nat),
    fillLoop gens rnd opts = some (o, r) → ∃ t, o = opts ++ t := by
  intro rnd
  induction rnd with
  | nil =>
    intro opts o r h
    unfold fillLoop at h
    split at h
    · cases h
    · simp only [Option.some.injEq, Prod.mk.injEq] at h
      exact ⟨[], by simp [h.1.symm]⟩
  | cons n rest ih =>
    intro opts o r h
    unfold fillLoop at h
    split at h
    · split at h
      · obtain ⟨t, ht⟩ := ih opts o r h
        exact ⟨t, ht⟩
      · obtain ⟨t, ht⟩ := ih _ o r h
        exact ⟨listPick gens n :: t, by simpa using ht⟩
    · simp only [Option.some.injEq, Prod.mk.injEq] at h
      exact ⟨[], by simp [h.1.symm]⟩

theorem fillLoop_length (gens : List String) :
    ∀ (rnd : List Nat) (opts o : List String) (r : List Nat),
    opts.length ≤ 4 → fillLoop gens rnd opts = some (o, r) → o.length = 4 := by
  intro rnd
  induction rnd with
  | nil =>
    intro opts o r hle h
    unfold fillLoop at h
    split at h
    · cases h
    · simp only [Option.some.injEq, Prod.mk.injEq] at h
      rw [← h.1]
      omega
  | cons n rest ih =>
    intro opts o r hle h
    unfold fillLoop at h
    split at h
    · split at h
      · exact ih opts o r hle h
      · refine ih _ o r ?_ h
        simp only [List.length_append, List.length_singleton]
        omega
    · simp only [Option.some.injEq, Prod.mk.injEq] at h
      rw [← h.1]
      omega

theorem fillLoop_nodup (gens : List String) :
    ∀ (rnd : List Nat) (opts o : List String) (r : List Nat),
    opts.Nodup → fillLoop gens rnd opts = some (o, r) → o.Nodup := by
  intro rnd
  induction rnd with
  | nil =>
    intro opts o r hnd h
    unfold fillLoop at h
    split at h
    · cases h
    · simp only [Option.some.injEq, Prod.mk.injEq] at h
      rw [← h.1]
      exact hnd
  | cons n rest ih =>
    intro opts o r hnd h
    unfold fillLoop at h
    split at h
    · split at h
      · exact ih opts o r hnd h
      · refine ih _ o r ?_ h
        rename_i hnm
        refine List.nodup_append.mpr ⟨hnd, List.nodup_singleton _, ?_⟩
        intro x hx hgx
        simp at hgx
        subst hgx
        exact hnm hx
    · simp only [Option.some.injEq, Prod.mk.injEq] at h
      rw [← h.1]
      exact hnd

/-! ### mcqBuildOptions specification -/

/-- Shape of the seeded option list of the mcq branch: the answer first,
at most two sampled similar words after it. -/
theorem mcqOptions1_shape (sample : List String → Nat → List String)
    (hsample : ∀ l k, (sample l k).length = min k l.length)
    (word : String) (sim : List String) :
    ∃ t1, (if !sim.isEmpty then [word] ++ sample sim (min 2 sim.length) else [word])
        = word :: t1
      ∧ (word :: t1).length ≤ 3 := by
  split
  · refine ⟨sample sim (min 2 sim.length), rfl, ?_⟩
    simp only [List.length_cons, hsample]
    omega
  · exact ⟨[], rfl, by simp⟩

/-- Once `mcqBuildOptions` succeeds, the emitted options are four pairwise
distinct entries containing the answer word, and the recorded index is the
answer's index after the shuffle. -/
theorem mcqBuildOptions_spec (sample : List String → Nat → List String)
    (shuffle : List String → List String)
    (hsample : ∀ l k, (sample l k).length = min k l.length)
    (hshuffle : ∀ l, List.Perm (shuffle l) l)
    (word tag : String) (tokens : List (String × String)) (rnd : List Nat)
    (opts : List String) (ci : Nat) (rnd' : List Nat)
    (h : mcqBuildOptions sample shuffle word tag tokens rnd = some (opts, ci, rnd')) :
    opts.length = 4 ∧ opts.Nodup ∧ word ∈ opts ∧ ci = opts.indexOf word := by
  simp only [mcqBuildOptions] at h
  split at h
  · cases h
  · rename_i options2 rnd2 hfl1
    split at h
    · cases h
    · rename_i options4 rnd3 hfl2
      simp only [Option.some.injEq, Prod.mk.injEq] at h
      obtain ⟨ho, hci, -⟩ := h
      obtain ⟨t1, ht1, hlen1⟩ := mcqOptions1_shape sample hsample word
        ((tokens.filter (fun wt => wt.2 = tag && wt.1 ≠ word)).map (·.1))
      rw [ht1] at hfl1
      obtain ⟨t2, ht2⟩ := fillLoop_append _ _ _ _ _ hfl1
      have h3shape : (pyDedup [] options2).take 4
          = word :: (pyDedup [word] (t1 ++ t2)).take 3 := by
        rw [ht2]
        have : (word :: t1) ++ t2 = word :: (t1 ++ t2) := rfl
        rw [this, pyDedup_cons_not_seen [] word (t1 ++ t2) (by simp)]
        simp [List.take_succ_cons]
      have h3nodup : ((pyDedup [] options2).take 4).Nodup :=
        (pyDedup_nodup [] options2).sublist (List.take_sublist _ _)
      have h3len : ((pyDedup [] options2).take 4).length ≤ 4 := by
        simp [List.length_take_le]
      have h3mem : word ∈ (pyDedup [] options2).take 4 := by
        rw [h3shape]; exact List.mem_cons_self _ _
      have h4len : options4.length = 4 := fillLoop_length _ _ _ _ _ h3len hfl2
      have h4nodup : options4.Nodup := fillLoop_nodup _ _ _ _ _ h3nodup hfl2
      have h4mem : word ∈ options4 := by
        obtain ⟨t3, ht3⟩ := fillLoop_append _ _ _ _ _ hfl2
        rw [ht3]
        exact List.mem_append_left _ h3mem
      have hperm := hshuffle options4
      subst ho
      exact ⟨by rw [hperm.length_eq, h4len], hperm.nodup_iff.mpr h4nodup,
        hperm.mem_iff.mpr h4mem, hci.symm⟩

/-! ### mcqLoop invariant -/

/-- Payload proved for every question the mcq sentence loop emits beyond
its accumulator: four distinct options, a valid correct index, and an
eligible word of one of the scanned sentences sitting at that index, the
question text being the sentence with that word blanked. -/
def McqEmitted (stop : String → Bool) (ss : List TaggedSentence) (q : GenQuestion) : Prop :=
  q.options.length = 4 ∧ q.options.Nodup ∧ q.correct < 4 ∧
    ∃ ts, ts ∈ ss ∧ ∃ w tag, (w, tag) ∈ ts.tokens
      ∧ tagIsContent tag = true ∧ stop (pyLower w) = false ∧ w.length > 3
      ∧ q.options.getD q.correct "" = w
      ∧ q.question = "What is the correct word in: '"
          ++ pyReplaceAll ts.text w "_____" ++ "'"

theorem McqEmitted_mono (stop : String → Bool) (ts : TaggedSentence)
    (ss : List TaggedSentence) (q : GenQuestion) (h : McqEmitted stop ss q) :
    McqEmitted stop (ts :: ss) q := by
  obtain ⟨ha, hb, hc, ts', hts', hrest⟩ := h
  exact ⟨ha, hb, hc, ts', List.mem_cons_of_mem _ hts', hrest⟩

/-- Invariant of the mcq sentence loop: given that the accumulator's
answers are all recorded in `used` and pairwise distinct (lower-cased),
the final list has pairwise distinct lower-cased answers, and every
question is either from the accumulator or satisfies `McqEmitted`. -/
theorem mcqLoop_spec (stop : String → Bool) (sample : List String → Nat → List String)
    (shuffle : List String → List String) (n : Nat)
    (hsample : ∀ l k, (sample l k).length = min k l.length)
    (hshuffle : ∀ l, List.Perm (shuffle l) l) :
    ∀ (ss : List TaggedSentence) (rnd : List Nat) (used : List String)
      (acc qs : List GenQuestion),
    mcqLoop stop sample shuffle n ss rnd used acc = some qs →
    (∀ q ∈ acc, pyLower (q.options.getD q.correct "") ∈ used) →
    (acc.map (fun q => pyLower (q.options.getD q.correct ""))).Nodup →
    (qs.map (fun q => pyLower (q.options.getD q.correct ""))).Nodup
    ∧ ∀ q ∈ qs, q ∈ acc ∨ McqEmitted stop ss q := by
  intro ss
  induction ss with
  | nil =>
    intro rnd used acc qs h hsub hnd
    simp only [mcqLoop, Option.some.injEq] at h
    subst h
    exact ⟨hnd, fun q hq => .inl hq⟩
  | cons ts rest ih =>
    intro rnd used acc qs h hsub hnd
    simp only [mcqLoop] at h
    split at h
    · obtain ⟨h1, h2⟩ := ih rnd used acc qs h hsub hnd
      exact ⟨h1, fun q hq => (h2 q hq).imp_right (McqEmitted_mono stop ts rest q)⟩
    · split at h
      · obtain ⟨h1, h2⟩ := ih rnd.tail used acc qs h hsub hnd
        exact ⟨h1, fun q hq => (h2 q hq).imp_right (McqEmitted_mono stop ts rest q)⟩
      · rename_i hne hused
        split at h
        · cases h
        · rename_i options correct_index rnd2 hbuild
          have himp : importantWordsMCQ stop used ts.tokens ≠ [] := by
            intro h0
            simp [h0] at hne
          set WT := listPickWT (importantWordsMCQ stop used ts.tokens) (rnd.headD 0) with hWT
          have hwmem : WT ∈ importantWordsMCQ stop used ts.tokens := by
            rw [hWT]
            exact listPickWT_mem _ _ himp
          unfold importantWordsMCQ at hwmem
          rw [List.mem_filter] at hwmem
          obtain ⟨htok, hpred⟩ := hwmem
          simp only [Bool.and_eq_true, Bool.not_eq_true', decide_eq_true_eq] at hpred
          obtain ⟨⟨⟨htag, hstop⟩, hunused⟩, hlen3⟩ := hpred
          obtain ⟨h4len, h4nodup, h4mem, h4idx⟩ := mcqBuildOptions_spec sample shuffle
            hsample hshuffle WT.1 WT.2 ts.tokens rnd.tail options correct_index rnd2 hbuild
          have hanscast : options.getD correct_index "" = WT.1 := by
            rw [h4idx]
            exact getD_indexOf options _ h4mem
          have hci4 : correct_index < 4 := by
            rw [h4idx, ← h4len]
            exact indexOf_lt_of_mem options _ h4mem
          have hnotmem : pyLower WT.1 ∉ used := by
            simpa using hunused
          set W := WT.1 with hWdef
          set Q : GenQuestion :=
            { question := "What is the correct word in: '"
                ++ pyReplaceAll ts.text W "_____" ++ "'"
              qtype := "mcq"
              options := options
              correct := correct_index } with hQdef
          have hpayload : McqEmitted stop (ts :: rest) Q :=
            ⟨h4len, h4nodup, hci4, ts, List.mem_cons_self _ _,
              W, WT.2, htok, htag, hstop, hlen3, hanscast, rfl⟩
          have hnd' : ((acc ++ [Q]).map
              (fun q => pyLower (q.options.getD q.correct ""))).Nodup := by
            rw [List.map_append]
            refine List.nodup_append.mpr ⟨hnd, by simp, ?_⟩
            intro x hx hx2
            simp only [List.map_cons, List.map_nil, List.mem_singleton] at hx2
            have hxu : x ∈ used := by
              obtain ⟨q, hqacc, hqeq⟩ := List.mem_map.mp hx
              rw [← hqeq]
              exact hsub q hqacc
            apply hnotmem
            have : pyLower (Q.options.getD Q.correct "") = pyLower W :=
              congrArg pyLower hanscast
            rw [hx2, this] at hxu
            exact hxu
          have hsub' : ∀ q ∈ acc ++ [Q],
              pyLower (q.options.getD q.correct "") ∈ used ++ [pyLower W] := by
            intro q hq
            rcases List.mem_append.mp hq with hq1 | hq2
            · exact List.mem_append_left _ (hsub q hq1)
            · simp only [List.mem_singleton] at hq2
              subst hq2
              apply List.mem_append_right
              simp only [List.mem_singleton]
              exact congrArg pyLower hanscast
          split at h
          · simp only [Option.some.injEq] at h
            subst h
            refine ⟨hnd', fun q hq => ?_⟩
            rcases List.mem_append.mp hq with hq1 | hq2
            · exact .inl hq1
            · simp only [List.mem_singleton] at hq2
              subst hq2
              exact .inr hpayload
          · obtain ⟨h1, h2⟩ := ih rnd2 (used ++ [pyLower W]) (acc ++ [Q]) qs h hsub' hnd'
            refine ⟨h1, fun q hq => ?_⟩
            rcases h2 q hq with hq1 | hq2
            · rcases List.mem_append.mp hq1 with ha | hb
              · exact .inl ha
              · simp only [List.mem_singleton] at hb
                subst hb
                exact .inr hpayload
            · exact .inr (McqEmitted_mono stop ts rest q hq2)

/-! ### fillLoopPS and process_sentence specification -/

theorem pyDedup_mem (seen l : List String) (x : String) (hx : x ∈ l) (hs : x ∉ seen) :
    x ∈ pyDedup seen l := by
  induction l generalizing seen with
  | nil => cases hx
  | cons a t ih =>
    unfold pyDedup
    by_cases ha : a ∈ seen
    · rw [if_pos ha]
      cases hx with
      | head => exact absurd ha hs
      | tail _ h' => exact ih seen h' hs
    · rw [if_neg ha]
      by_cases hxa : x = a
      · subst hxa
        exact List.mem_cons_self _ _
      · cases hx with
        | head => exact absurd rfl hxa
        | tail _ h' =>
          refine List.mem_cons_of_mem _ (ih (seen ++ [a]) h' ?_)
          intro hc
          rcases List.mem_append.mp hc with h1 | h2
          · exact hs h1
          · simp at h2
            exact hxa h2

theorem fillLoopPS_spec (tag : String) :
    ∀ (rnd : List Nat) (opts o : List String) (r : List Nat) (word : String),
    word ∈ opts → opts.length ≤ 4 → (opts.length = 4 → opts.Nodup) →
    fillLoopPS tag rnd opts = some (o, r) →
    o.length = 4 ∧ o.Nodup ∧ word ∈ o := by
  intro rnd
  induction rnd with
  | nil =>
    intro opts o r word hw hle h4 h
    unfold fillLoopPS at h
    split at h
    · cases h
    · simp only [Option.some.injEq, Prod.mk.injEq] at h
      obtain ⟨ho, -⟩ := h
      rw [← ho]
      have hlen : opts.length = 4 := by omega
      exact ⟨hlen, h4 hlen, hw⟩
  | cons n rest ih =>
    intro opts o r word hw hle h4 h
    unfold fillLoopPS at h
    split at h
    · rename_i hlt
      have hle3 : opts.length ≤ 3 := by omega
      have hstep : ∀ g : String,
          fillLoopPS tag rest (pyDedup [] (opts ++ [g])) = some (o, r) →
          o.length = 4 ∧ o.Nodup ∧ word ∈ o := by
        intro g hg
        refine ih (pyDedup [] (opts ++ [g])) o r word ?_ ?_ ?_ hg
        · exact pyDedup_mem [] _ word (List.mem_append_left _ hw) (by simp)
        · have := (pyDedup_sublist [] (opts ++ [g])).length_le
          simp only [List.length_append, List.length_singleton] at this
          omega
        · intro _
          exact pyDedup_nodup [] _
      split at h
      · exact hstep _ h
      · split at h
        · exact hstep _ h
        · split at h
          · exact hstep _ h
          · cases h
    · simp only [Option.some.injEq, Prod.mk.injEq] at h
      obtain ⟨ho, -⟩ := h
      rw [← ho]
      have hlen : opts.length = 4 := by omega
      exact ⟨hlen, h4 hlen, hw⟩

/-- Once `process_sentence` emits a question: four pairwise distinct
options, a valid correct index pointing at the recorded answer, and the
question text is the sentence with that word blanked. -/
theorem process_sentence_spec (stop : String → Bool)
    (sample : List String → Nat → List String) (shuffle : List String → List String)
    (hsample : ∀ l k, (sample l k).length = min k l.length)
    (hshuffle : ∀ l, List.Perm (shuffle l) l)
    (ts : TaggedSentence) (used : List String) (rnd : List Nat) (q : PSQuestion)
    (h : process_sentence stop sample shuffle ts used rnd = some q) :
    q.options.length = 4 ∧ q.options.Nodup ∧ q.correct < 4
    ∧ q.options.getD q.correct "" = q.correct_answer
    ∧ q.question = "What is the correct word in: '"
        ++ pyReplaceAll ts.text q.correct_answer "_____" ++ "'" := by
  simp only [process_sentence] at h
  split at h
  · cases h
  · split at h
    · cases h
    · rename_i options2 rnd2 hps
      simp only [Option.some.injEq] at h
      obtain ⟨t1, ht1, hlen1⟩ := mcqOptions1_shape sample hsample
        (listPickWT (importantWordsMCQ stop used ts.tokens) (rnd.headD 0)).1
        ((ts.tokens.filter (fun p =>
          p.2 = (listPickWT (importantWordsMCQ stop used ts.tokens) (rnd.headD 0)).2
          && p.1 ≠ (listPickWT (importantWordsMCQ stop used ts.tokens) (rnd.headD 0)).1)).map (·.1))
      rw [ht1] at hps
      obtain ⟨h2len, h2nodup, h2mem⟩ := fillLoopPS_spec
        (listPickWT (importantWordsMCQ stop used ts.tokens) (rnd.headD 0)).2
        rnd.tail
        ((listPickWT (importantWordsMCQ stop used ts.tokens) (rnd.headD 0)).1 :: t1)
        options2 rnd2
        (listPickWT (importantWordsMCQ stop used ts.tokens) (rnd.headD 0)).1
        (List.mem_cons_self _ _) (by omega) (fun hc => absurd hc (by omega)) hps
      have hperm := hshuffle options2
      have hslen : (shuffle options2).length = 4 := by rw [hperm.length_eq, h2len]
      have hsnodup : (shuffle options2).Nodup := hperm.nodup_iff.mpr h2nodup
      have hsmem : (listPickWT (importantWordsMCQ stop used ts.tokens) (rnd.headD 0)).1
          ∈ shuffle options2 := hperm.mem_iff.mpr h2mem
      have htake : (shuffle options2).take 4 = shuffle options2 :=
        List.take_of_length_le (le_of_eq hslen)
      subst h
      refine ⟨?_, ?_, ?_, ?_, rfl⟩
      · simpa [htake] using hslen
      · simpa [htake] using hsnodup
      · simpa [← hslen] using indexOf_lt_of_mem _ _ hsmem
      · simpa [htake] using getD_indexOf _ _ hsmem

/-! ### Run-extraction helpers for generate_quiz -/

theorem generate_quiz_mcq_run (stop : String → Bool)
    (sample : List String → Nat → List String) (shuffle : List String → List String)
    (sentences : List TaggedSentence) (n : Nat) (rnd : List Nat) (qs : List GenQuestion)
    (h : generate_quiz_model stop sample shuffle sentences n "mcq" rnd = some (.ok qs)) :
    mcqLoop stop sample shuffle n (sentences.take (n * 2)) rnd [] [] = some qs := by
  simp only [generate_quiz_model, eq_self_iff_true, if_true] at h
  cases hm : mcqLoop stop sample shuffle n (sentences.take (n * 2)) rnd [] [] with
  | none => rw [hm] at h; cases h
  | some a =>
    rw [hm] at h
    simp only [Option.map_some', Option.some.injEq] at h
    simpa using h

theorem generate_quiz_fill_run (stop : String → Bool)
    (sample : List String → Nat → List String) (shuffle : List String → List String)
    (sentences : List TaggedSentence) (n : Nat) (rnd : List Nat) (qs : List GenQuestion)
    (h : generate_quiz_model stop sample shuffle sentences n "fill_blanks" rnd
      = some (.ok qs)) :
    generate_fill_blanks stop sentences n rnd = qs := by
  simp only [generate_quiz_model, eq_self_iff_true, if_true] at h
  rw [if_neg (by decide), if_neg (by decide)] at h
  exact Except.ok.inj (Option.some_inj.mp h)

/-! ## C7 -/

/-- C7: every question emitted by the MCQ strategy — both the mcq branch
of `generate_quiz` and `process_sentence` — has exactly 4 pairwise
distinct (case-sensitive) options, a correct index in `[0, 4)` pointing at
the chosen word, and the question text is the sentence with that word
blanked out. -/
theorem C7_mcq_four_distinct_options (stop : String → Bool)
    (sample : List String → Nat → List String) (shuffle : List String → List String)
    (sentences : List TaggedSentence) (n : Nat) (rnd : List Nat) (qs : List GenQuestion)
    (hsample : ∀ l k, (sample l k).length = min k l.length)
    (hshuffle : ∀ l, List.Perm (shuffle l) l)
    (hrun : generate_quiz_model stop sample shuffle sentences n "mcq" rnd = some (.ok qs)) :
    (∀ q ∈ qs, q.options.length = 4 ∧ q.options.Nodup ∧ q.correct < 4
      ∧ ∃ ts, ts ∈ sentences ∧ ∃ w tag, (w, tag) ∈ ts.tokens ∧ tagIsContent tag = true
          ∧ stop (pyLower w) = false ∧ w.length > 3
          ∧ q.options.getD q.correct "" = w
          ∧ q.question = "What is the correct word in: '"
              ++ pyReplaceAll ts.text w "_____" ++ "'")
    ∧ (∀ (ts : TaggedSentence) (used : List String) (rnd' : List Nat) (pq : PSQuestion),
        process_sentence stop sample shuffle ts used rnd' = some pq →
        pq.options.length = 4 ∧ pq.options.Nodup ∧ pq.correct < 4
          ∧ pq.options.getD pq.correct "" = pq.correct_answer
          ∧ pq.question = "What is the correct word in: '"
              ++ pyReplaceAll ts.text pq.correct_answer "_____" ++ "'") := by
  constructor
  · have hm := generate_quiz_mcq_run stop sample shuffle sentences n rnd qs hrun
    obtain ⟨-, h2⟩ := mcqLoop_spec stop sample shuffle n hsample hshuffle
      (sentences.take (n * 2)) rnd [] [] qs hm (by simp) (by simp)
    intro q hq
    rcases h2 q hq with hacc | hem
    · cases hacc
    · obtain ⟨ha, hb, hc, ts, hts, w, tag, h1, h2', h3, h4, h5, h6⟩ := hem
      exact ⟨ha, hb, hc, ts, List.take_subset _ _ hts, w, tag, h1, h2', h3, h4, h5, h6⟩
  · intro ts used rnd' pq hp
    exact process_sentence_spec stop sample shuffle hsample hshuffle ts used rnd' pq hp

/-- Witness for C7: a one-sentence concrete run of the mcq strategy; the
emitted question's options are 4 and distinct with the answer at the
recorded index. -/
theorem C7_witness :
    generate_quiz_model (fun _ => false) (fun l k => l.take k) (fun l => l)
        [⟨"Computers work", [("Computers", "NNS")]⟩] 1 "mcq" [0, 0, 1, 2]
      = some (.ok [⟨"What is the correct word in: '_____ work'", "mcq",
          ["Computers", "object", "item", "thing"], 0⟩])
    ∧ (["Computers", "object", "item", "thing"] : List String).length = 4
    ∧ (["Computers", "object", "item", "thing"] : List String).Nodup := by
  have hrun : generate_quiz_model (fun _ => false) (fun l k => l.take k) (fun l => l)
      [⟨"Computers work", [("Computers", "NNS")]⟩] 1 "mcq" [0, 0, 1, 2]
      = some (.ok [⟨"What is the correct word in: '_____ work'", "mcq",
          ["Computers", "object", "item", "thing"], 0⟩]) := rfl
  have h := C7_mcq_four_distinct_options (fun _ => false) (fun l k => l.take k) (fun l => l)
    [⟨"Computers work", [("Computers", "NNS")]⟩] 1 [0, 0, 1, 2]
    [⟨"What is the correct word in: '_____ work'", "mcq",
      ["Computers", "object", "item", "thing"], 0⟩]
    (fun l k => by simp [List.length_take]) (fun l => List.Perm.refl l) hrun
  obtain ⟨hlen4, hnodup, -⟩ := h.1 _ (List.mem_singleton_self _)
  exact ⟨hrun, hlen4, hnodup⟩

/-! ## C8 -/

/-- Payload proved for every question the fill-blanks loop emits beyond
its accumulator. -/
def FbEmitted (stop : String → Bool) (ss : List TaggedSentence) (q : GenQuestion) : Prop :=
  ∃ ts, ts ∈ ss ∧ ∃ w used0, w ∈ importantWordsFB stop used0 ts.tokens
    ∧ q.question = pyReplaceFirst ts.text w "_____"
    ∧ q.qtype = "fill_blanks" ∧ q.options = [w] ∧ q.correct = 0

theorem FbEmitted_mono (stop : String → Bool) (ts : TaggedSentence)
    (ss : List TaggedSentence) (q : GenQuestion) (h : FbEmitted stop ss q) :
    FbEmitted stop (ts :: ss) q := by
  obtain ⟨ts', hts', hrest⟩ := h
  exact ⟨ts', List.mem_cons_of_mem _ hts', hrest⟩

/-- Invariant of the fill-blanks sentence loop, mirroring
`mcqLoop_spec`. -/
theorem fbLoop_spec (stop : String → Bool) (n : Nat) :
    ∀ (ss : List TaggedSentence) (rnd : List Nat) (used : List String)
      (acc : List GenQuestion),
    (∀ q ∈ acc, pyLower (q.options.getD q.correct "") ∈ used) →
    (acc.map (fun q => pyLower (q.options.getD q.correct ""))).Nodup →
    ((fbLoop stop n ss rnd used acc).map
        (fun q => pyLower (q.options.getD q.correct ""))).Nodup
    ∧ ∀ q ∈ fbLoop stop n ss rnd used acc, q ∈ acc ∨ FbEmitted stop ss q := by
  intro ss
  induction ss with
  | nil =>
    intro rnd used acc hsub hnd
    simp only [fbLoop]
    exact ⟨hnd, fun q hq => .inl hq⟩
  | cons ts rest ih =>
    intro rnd used acc hsub hnd
    simp only [fbLoop]
    split
    · exact ⟨hnd, fun q hq => .inl hq⟩
    · split
      · obtain ⟨h1, h2⟩ := ih rnd used acc hsub hnd
        exact ⟨h1, fun q hq => (h2 q hq).imp_right (FbEmitted_mono stop ts rest q)⟩
      · split
        · obtain ⟨h1, h2⟩ := ih rnd.tail used acc hsub hnd
          exact ⟨h1, fun q hq => (h2 q hq).imp_right (FbEmitted_mono stop ts rest q)⟩
        · rename_i hne hused
          have himp : importantWordsFB stop used ts.tokens ≠ [] := by
            intro h0
            simp [h0] at hne
          set W := listPick (importantWordsFB stop used ts.tokens) (rnd.headD 0) with hW
          have hwm : W ∈ importantWordsFB stop used ts.tokens := by
            rw [hW]
            exact listPick_mem _ _ himp
          have hnotmem : pyLower W ∉ used := by
            simpa using hused
          set Q : GenQuestion :=
            { question := pyReplaceFirst ts.text W "_____"
              qtype := "fill_blanks"
              options := [W]
              correct := 0 } with hQ
          have hpayload : FbEmitted stop (ts :: rest) Q :=
            ⟨ts, List.mem_cons_self _ _, W, used, hwm, rfl, rfl, rfl, rfl⟩
          have hans : Q.options.getD Q.correct "" = W := rfl
          have hnd' : ((acc ++ [Q]).map
              (fun q => pyLower (q.options.getD q.correct ""))).Nodup := by
            rw [List.map_append]
            refine List.nodup_append.mpr ⟨hnd, by simp, ?_⟩
            intro x hx hx2
            simp only [List.map_cons, List.map_nil, List.mem_singleton] at hx2
            have hxu : x ∈ used := by
              obtain ⟨q, hqacc, hqeq⟩ := List.mem_map.mp hx
              rw [← hqeq]
              exact hsub q hqacc
            apply hnotmem
            rw [hx2, congrArg pyLower hans] at hxu
            exact hxu
          have hsub' : ∀ q ∈ acc ++ [Q],
              pyLower (q.options.getD q.correct "") ∈ used ++ [pyLower W] := by
            intro q hq
            rcases List.mem_append.mp hq with hq1 | hq2
            · exact List.mem_append_left _ (hsub q hq1)
            · simp only [List.mem_singleton] at hq2
              subst hq2
              apply List.mem_append_right
              simp only [List.mem_singleton]
              exact congrArg pyLower hans
          obtain ⟨h1, h2⟩ := ih rnd.tail (used ++ [pyLower W]) (acc ++ [Q]) hsub' hnd'
          refine ⟨h1, fun q hq => ?_⟩
          rcases h2 q hq with hq1 | hq2
          · rcases List.mem_append.mp hq1 with ha | hb
            · exact .inl ha
            · simp only [List.mem_singleton] at hb
              subst hb
              exact .inr hpayload
          · exact .inr (FbEmitted_mono stop ts rest q hq2)

/-- C8: within one generated quiz (mcq or fill-in-blank), no two questions
share the same correct answer word case-insensitively: the list of
lower-cased answers (the option at the correct index) has no
duplicates. -/
theorem C8_no_duplicate_answers (stop : String → Bool)
    (sample : List String → Nat → List String) (shuffle : List String → List String)
    (sentences : List TaggedSentence) (n : Nat) (rndM rndF : List Nat)
    (qsM qsF : List GenQuestion)
    (hsample : ∀ l k, (sample l k).length = min k l.length)
    (hshuffle : ∀ l, List.Perm (shuffle l) l)
    (hmcq : generate_quiz_model stop sample shuffle sentences n "mcq" rndM
      = some (.ok qsM))
    (hfill : generate_quiz_model stop sample shuffle sentences n "fill_blanks" rndF
      = some (.ok qsF)) :
    (qsM.map (fun q => pyLower (q.options.getD q.correct ""))).Nodup
    ∧ (qsF.map (fun q => pyLower (q.options.getD q.correct ""))).Nodup := by
  constructor
  · have hm := generate_quiz_mcq_run stop sample shuffle sentences n rndM qsM hmcq
    exact (mcqLoop_spec stop sample shuffle n hsample hshuffle
      (sentences.take (n * 2)) rndM [] [] qsM hm (by simp) (by simp)).1
  · have hf := generate_quiz_fill_run stop sample shuffle sentences n rndF qsF hfill
    have := (fbLoop_spec stop n sentences rndF [] [] (by simp) (by simp)).1
    rw [show fbLoop stop n sentences rndF [] [] = qsF from hf] at this
    exact this

/-- Witness for C8: concrete mcq and fill-blanks runs with pairwise
distinct lower-cased answers. -/
theorem C8_witness :
    ((([⟨"What is the correct word in: '_____ work'", "mcq",
          ["Computers", "object", "item", "thing"], 0⟩] : List GenQuestion).map
        (fun q => pyLower (q.options.getD q.correct ""))).Nodup)
    ∧ ((([⟨"_____ work", "fill_blanks", ["Computers"], 0⟩] : List GenQuestion).map
        (fun q => pyLower (q.options.getD q.correct ""))).Nodup) :=
  C8_no_duplicate_answers (fun _ => false) (fun l k => l.take k) (fun l => l)
    [⟨"Computers work", [("Computers", "NNS")]⟩, ⟨"Alpha beta", [("Alpha", "NN")]⟩]
    1 [0, 0, 1, 2] [0]
    [⟨"What is the correct word in: '_____ work'", "mcq",
      ["Computers", "object", "item", "thing"], 0⟩]
    [⟨"_____ work", "fill_blanks", ["Computers"], 0⟩]
    (fun l k => by simp [List.length_take]) (fun l => List.Perm.refl l) rfl rfl

/-! ## C9 -/

/-- C9 counterexample: the claim says the fill-blanks strategy selects the
FIRST eligible token of a sentence.  The source draws
`random.choice(important_words)` instead: with random draw 1 on a sentence
whose eligible tokens are `["Computers", "process", "information"]`, the
emitted sole option is `"process"`, not the first eligible token
`"Computers"`. -/
theorem C9_counterexample :
    ((generate_fill_blanks (fun _ => false)
        [⟨"Computers process information",
          [("Computers", "NNS"), ("process", "VBP"), ("information", "NN")]⟩]
        1 [1]).map GenQuestion.options = [["process"]])
    ∧ (importantWordsFB (fun _ => false) []
        [("Computers", "NNS"), ("process", "VBP"), ("information", "NN")]).headD ""
        = "Computers"
    ∧ ("process" : String) ≠ "Computers" :=
  ⟨rfl, rfl, by decide⟩

/-- C9 amended: for every sentence processed by the fill-in-blank strategy
that contains at least one eligible token, the strategy selects a randomly
chosen eligible token (not necessarily the first), replaces only its first
occurrence with the blank marker, and records it as the sole option
(options list of length 1, correct index 0). -/
theorem C9_amended_random_eligible_token (stop : String → Bool)
    (sentences : List TaggedSentence) (num_questions : Nat) (rnd : List Nat) :
    ∀ q ∈ generate_fill_blanks stop sentences num_questions rnd,
      ∃ ts, ts ∈ sentences ∧ ∃ w used0, w ∈ importantWordsFB stop used0 ts.tokens
        ∧ q.question = pyReplaceFirst ts.text w "_____"
        ∧ q.options = [w] ∧ q.correct = 0 := by
  intro q hq
  obtain ⟨-, h2⟩ := fbLoop_spec stop num_questions sentences rnd [] [] (by simp) (by simp)
  rcases h2 q (by simpa [generate_fill_blanks] using hq) with hacc | hem
  · cases hacc
  · obtain ⟨ts, hts, w, used0, h1, hq', -, hopt, hcor⟩ := hem
    exact ⟨ts, hts, w, used0, h1, hq', hopt, hcor⟩

/-- Witness for C9 (amended) at a concrete emitting run. -/
theorem C9_witness :
    (generate_fill_blanks (fun _ => false) [⟨"Alpha beta", [("Alpha", "NN")]⟩] 1 [0]
      = [⟨"_____ beta", "fill_blanks", ["Alpha"], 0⟩])
    ∧ ∃ ts, ts ∈ [(⟨"Alpha beta", [("Alpha", "NN")]⟩ : TaggedSentence)]
        ∧ ∃ w used0, w ∈ importantWordsFB (fun _ => false) used0 ts.tokens
          ∧ (⟨"_____ beta", "fill_blanks", ["Alpha"], 0⟩ : GenQuestion).question
              = pyReplaceFirst ts.text w "_____"
          ∧ (⟨"_____ beta", "fill_blanks", ["Alpha"], 0⟩ : GenQuestion).options = [w]
          ∧ (⟨"_____ beta", "fill_blanks", ["Alpha"], 0⟩ : GenQuestion).correct = 0 := by
  refine ⟨rfl, ?_⟩
  refine C9_amended_random_eligible_token (fun _ => false)
    [⟨"Alpha beta", [("Alpha", "NN")]⟩] 1 [0]
    ⟨"_____ beta", "fill_blanks", ["Alpha"], 0⟩ ?_
  rw [show generate_fill_blanks (fun _ => false) [⟨"Alpha beta", [("Alpha", "NN")]⟩] 1 [0]
      = [⟨"_____ beta", "fill_blanks", ["Alpha"], 0⟩] from rfl]
  exact List.mem_singleton_self _
